import Mathlib

/-!
Shallow embedding of the goware/breaker repository.

The embedding covers:
* the Go error values the package builds and tests
  (`errors.New` sentinels, `fmt.Errorf` leaf errors, `superr` composites),
* `errors.Is` wrap-aware membership testing,
* the `Breaker` configuration struct and its constructors
  `Default` and `New` (src/unnamed/part_001),
* the retry loop `Breaker.Do` (src/unnamed/part_001), and
* the sibling loop `ExpBackoffRetry` (src/retry.go).

Time-dependent effects (sleeps, the wall-clock reset in `ExpBackoffRetry`,
log emission) are recorded in the result as data so that each run is a pure
function of its inputs.  An operation is modelled as a function from the
invocation index (0-based) to its returned error; a Go context is modelled
as a function from the loop-iteration index to its done-flag together with
the error `ctx.Err()` reports once done.
-/

/-- Go error values relevant to the package: the sentinels `ErrFatal`,
`ErrHitMaxRetries` (src/unnamed/part_001) and `ErrExhaustedRetries`
(src/retry.go), leaf errors made by `errors.New`/`fmt.Errorf`, and
`superr` composites (`superr.New`/`superr.Wrap`) whose cause chain
contains both arguments. -/
inductive GoError : Type where
  | errFatal : GoError
  | errHitMaxRetries : GoError
  | errExhaustedRetries : GoError
  | mk : String → GoError
  | wrap : GoError → GoError → GoError
deriving DecidableEq, Repr

/-- Wrap-aware membership test, embedding Go `errors.Is`: an error matches a
target if it equals the target or the target occurs anywhere in its cause
chain (a `superr` composite exposes both of its components to `errors.Is`). -/
def GoError.is : GoError → GoError → Bool
  | GoError.wrap a b, target =>
      (GoError.wrap a b == target) || a.is target || b.is target
  | e, target => e == target

/-- A Go `context.Context` as the retry loops observe it: `done i` is whether
`ctx.Done()` is closed when checked at the top of loop iteration `i`, and
`err` is the non-nil error `ctx.Err()` reports once done. -/
structure GoCtx where
  done : Nat → Bool
  err : GoError

/-- The `Breaker` struct of src/unnamed/part_001.  The `log` field records
whether a logger is present (`log != nil` in Go); the logger's identity is
irrelevant to the embedding because the core only emits to it. -/
structure Breaker where
  log : Bool
  backoff : Int
  factor : ℚ
  maxTries : Int

/-- Observable outcome of one run of a retry loop: the returned error
(`none` = Go `nil`), the number of invocations of the operation, the `Warnf`
events (current delay, 1-based attempt number `try+1`, triggering error),
the `Errorf` events (the logged `maxTries`), and the sleep durations, each
in emission order. -/
structure DoResult where
  ret : Option GoError
  calls : Nat
  warns : List (ℚ × Nat × GoError)
  errors : List Int
  sleeps : List ℚ
deriving DecidableEq, Repr

/-- The loop body of `Breaker.Do` (src/unnamed/part_001, lines 50-89),
parametrised by the current `delay` and `tryCount` (`delay` and `try` in the
source).  Because `try` is incremented on every iteration that does not
return, `tryCount` is also the loop-iteration index, so it indexes both the
context check and the operation invocation.  Branches in source order:
context check, success check, fatal check (`errors.Is(err, ErrFatal)`),
budget check (`try >= b.maxTries`, returning `superr.New(ErrHitMaxRetries,
err)` after an `Errorf`), and otherwise `Warnf`, sleep, `delay *= factor`,
`try++`. -/
def doLoop (b : Breaker) (ctx : GoCtx) (fn : Nat → Option GoError)
    (delay : ℚ) (tryCount : Nat) : DoResult :=
  if ctx.done tryCount then
    ⟨some ctx.err, 0, [], [], []⟩
  else
    match fn tryCount with
    | none => ⟨none, 1, [], [], []⟩
    | some err =>
      if err.is GoError.errFatal then
        ⟨some err, 1, [], [], []⟩
      else if _hmt : b.maxTries ≤ (tryCount : Int) then
        ⟨some (GoError.wrap GoError.errHitMaxRetries err), 1, [],
          if b.log then [b.maxTries] else [], []⟩
      else
        let rest := doLoop b ctx fn (delay * b.factor) (tryCount + 1)
        ⟨rest.ret, rest.calls + 1,
          (if b.log then [(delay, tryCount + 1, err)] else []) ++ rest.warns,
          rest.errors,
          delay :: rest.sleeps⟩
termination_by (b.maxTries - (tryCount : Int)).toNat
decreasing_by omega

/-- `Breaker.Do` (src/unnamed/part_001): runs the loop with
`delay = float64(b.backoff)` and `try = 0`. -/
def Breaker.Do (b : Breaker) (ctx : GoCtx) (fn : Nat → Option GoError) : DoResult :=
  doLoop b ctx fn (b.backoff : ℚ) 0

/-- The `New` constructor of src/unnamed/part_001. -/
def New (log : Bool) (backoff : Int) (factor : ℚ) (maxTries : Int) : Breaker :=
  ⟨log, backoff, factor, maxTries⟩

/-- The `Default` constructor of src/unnamed/part_001: optional logger,
`backoff = 1 * time.Second` (10^9 nanoseconds), `factor = 2`,
`maxTries = 15`. -/
def Default (optLog : Bool) : Breaker :=
  ⟨optLog, 1000000000, 2, 15⟩

/-- The package-level convenience function `Do` of src/unnamed/part_001:
construct and run once. -/
def Do (ctx : GoCtx) (fn : Nat → Option GoError) (log : Bool)
    (backoff : Int) (factor : ℚ) (maxTries : Int) : DoResult :=
  (New log backoff factor maxTries).Do ctx fn

/-- The loop body of `ExpBackoffRetry` (src/retry.go).  Differences from
`Breaker.Do`, all taken from the source: the context-done branch returns Go
`nil`; the operation's wall-clock duration (modelled as the first component
of `fn`) resets `delay` and `try` when it exceeds `2*backoff`; `Warnf` is
emitted before the budget check (so the exhausting iteration warns and then
errors); exhaustion returns `superr.New(ErrExhaustedRetries, err)`; there is
no fatal-error check.  Because `try` can reset, the loop need not terminate,
so the embedding carries `fuel` and a separate iteration index `iter`;
`none` means the fuel ran out before the loop returned. -/
def expBackoffLoop (fuel : Nat) (ctx : GoCtx) (fn : Nat → Int × Option GoError)
    (log : Bool) (backoff : Int) (factor : ℚ) (maxTries : Int)
    (delay : ℚ) (tryCount iter : Nat) : Option DoResult :=
  match fuel with
  | 0 => none
  | fuel + 1 =>
    if ctx.done iter then some ⟨none, 0, [], [], []⟩
    else
      match (fn iter).2 with
      | none => some ⟨none, 1, [], [], []⟩
      | some err =>
        let delay2 := if 2 * backoff < (fn iter).1 then (backoff : ℚ) else delay
        let try2 := if 2 * backoff < (fn iter).1 then 0 else tryCount
        let w : List (ℚ × Nat × GoError) := if log then [(delay2, try2 + 1, err)] else []
        if maxTries ≤ (try2 : Int) then
          some ⟨some (GoError.wrap GoError.errExhaustedRetries err), 1, w,
            if log then [maxTries] else [], []⟩
        else
          (expBackoffLoop fuel ctx fn log backoff factor maxTries
              (delay2 * factor) (try2 + 1) (iter + 1)).map
            fun rest =>
              ⟨rest.ret, rest.calls + 1, w ++ rest.warns, rest.errors,
                delay2 :: rest.sleeps⟩

/-- `ExpBackoffRetry` (src/retry.go): runs the loop with
`delay = float64(backoff)`, `try = 0`, at iteration index 0. -/
def ExpBackoffRetry (fuel : Nat) (ctx : GoCtx) (fn : Nat → Int × Option GoError)
    (log : Bool) (backoff : Int) (factor : ℚ) (maxTries : Int) : Option DoResult :=
  expBackoffLoop fuel ctx fn log backoff factor maxTries (backoff : ℚ) 0 0

/-- The geometric sleep schedule `[d, d*f, d*f^2, ...]` of length `n`. -/
def geomSleeps (f : ℚ) : ℚ → Nat → List ℚ
  | _, 0 => []
  | d, n + 1 => d :: geomSleeps f (d * f) n

/-- The 1-based attempt numbers `t+1, t+2, ..., t+m` that `Warnf` logs as
`try+1` when retries `t, ..., t+m-1` are consumed. -/
def attemptNums (t m : Nat) : List Nat :=
  (List.range m).map (fun i => t + i + 1)

/-- The warning events a run of `Breaker.Do` emits while attempts
`t, t+1, ...` keep failing retryably: entry `i` carries delay `d * f^i`,
attempt number `t+i+1` and the error of attempt `t+i`. -/
def expWarns (errOf : Nat → GoError) (f : ℚ) : ℚ → Nat → Nat → List (ℚ × Nat × GoError)
  | _, _, 0 => []
  | d, t, j + 1 => (d, t + 1, errOf t) :: expWarns errOf f (d * f) (t + 1) j

lemma GoError.is_self (e : GoError) : e.is e = true := by
  cases e <;> simp [GoError.is]

lemma GoError.wrap_is_left (a b t : GoError) (h : a.is t = true) :
    (GoError.wrap a b).is t = true := by
  simp [GoError.is, h]

lemma GoError.wrap_is_right (a b : GoError) : (GoError.wrap a b).is b = true := by
  simp [GoError.is, GoError.is_self]

lemma GoError.wrap_ne (a e : GoError) : GoError.wrap a e ≠ e := by
  intro h
  have hs : sizeOf (GoError.wrap a e) = sizeOf e := by rw [h]
  simp at hs

lemma doLoop_cancel (b : Breaker) (ctx : GoCtx) (fn : Nat → Option GoError)
    (d : ℚ) (t : Nat) (h : ctx.done t = true) :
    doLoop b ctx fn d t = ⟨some ctx.err, 0, [], [], []⟩ := by
  rw [doLoop]
  simp [h]

lemma doLoop_success (b : Breaker) (ctx : GoCtx) (fn : Nat → Option GoError)
    (d : ℚ) (t : Nat) (h1 : ctx.done t = false) (h2 : fn t = none) :
    doLoop b ctx fn d t = ⟨none, 1, [], [], []⟩ := by
  rw [doLoop]
  simp [h1, h2]

lemma doLoop_fatal (b : Breaker) (ctx : GoCtx) (fn : Nat → Option GoError)
    (d : ℚ) (t : Nat) (e : GoError) (h1 : ctx.done t = false)
    (h2 : fn t = some e) (h3 : e.is GoError.errFatal = true) :
    doLoop b ctx fn d t = ⟨some e, 1, [], [], []⟩ := by
  rw [doLoop]
  simp [h1, h2, h3]

lemma doLoop_exhaust (b : Breaker) (ctx : GoCtx) (fn : Nat → Option GoError)
    (d : ℚ) (t : Nat) (e : GoError) (h1 : ctx.done t = false)
    (h2 : fn t = some e) (h3 : e.is GoError.errFatal = false)
    (h4 : b.maxTries ≤ (t : Int)) :
    doLoop b ctx fn d t = ⟨some (GoError.wrap GoError.errHitMaxRetries e), 1, [],
      if b.log then [b.maxTries] else [], []⟩ := by
  rw [doLoop]
  simp [h1, h2, h3, h4]

lemma doLoop_retry (b : Breaker) (ctx : GoCtx) (fn : Nat → Option GoError)
    (d : ℚ) (t : Nat) (e : GoError) (h1 : ctx.done t = false)
    (h2 : fn t = some e) (h3 : e.is GoError.errFatal = false)
    (h4 : ¬ b.maxTries ≤ (t : Int)) :
    doLoop b ctx fn d t =
      ⟨(doLoop b ctx fn (d * b.factor) (t + 1)).ret,
       (doLoop b ctx fn (d * b.factor) (t + 1)).calls + 1,
       (if b.log then [(d, t + 1, e)] else []) ++
         (doLoop b ctx fn (d * b.factor) (t + 1)).warns,
       (doLoop b ctx fn (d * b.factor) (t + 1)).errors,
       d :: (doLoop b ctx fn (d * b.factor) (t + 1)).sleeps⟩ := by
  rw [doLoop]
  simp [h1, h2, h3, h4]

lemma geomSleeps_length (f : ℚ) : ∀ (n : Nat) (d : ℚ), (geomSleeps f d n).length = n := by
  intro n
  induction n with
  | zero => intro d; rfl
  | succ n ih => intro d; simp [geomSleeps, ih]

lemma expWarns_length (errOf : Nat → GoError) (f : ℚ) :
    ∀ (j : Nat) (d : ℚ) (t : Nat), (expWarns errOf f d t j).length = j := by
  intro j
  induction j with
  | zero => intro d t; rfl
  | succ j ih => intro d t; simp [expWarns, ih]

lemma attemptNums_succ (t m : Nat) :
    attemptNums t (m + 1) = (t + 1) :: attemptNums (t + 1) m := by
  simp only [attemptNums, List.range_succ_eq_map, List.map_cons, List.map_map]
  congr 1
  apply List.map_congr_left
  intro i _
  simp [Function.comp]
  omega

lemma doLoop_warns_nil (b : Breaker) (ctx : GoCtx) (fn : Nat → Option GoError)
    (hlog : b.log = false) :
    ∀ (n : Nat) (d : ℚ) (t : Nat), (b.maxTries - (t : Int)).toNat = n →
      (doLoop b ctx fn d t).warns = [] := by
  intro n
  induction n using Nat.strong_induction_on with
  | _ n ih =>
    intro d t hn
    by_cases hdone : ctx.done t = true
    · rw [doLoop_cancel b ctx fn d t hdone]
    · have hdone2 : ctx.done t = false := by simpa using hdone
      cases hfn : fn t with
      | none => rw [doLoop_success b ctx fn d t hdone2 hfn]
      | some e =>
        by_cases hfat : e.is GoError.errFatal = true
        · rw [doLoop_fatal b ctx fn d t e hdone2 hfn hfat]
        · have hfat2 : e.is GoError.errFatal = false := by simpa using hfat
          by_cases hmt : b.maxTries ≤ (t : Int)
          · rw [doLoop_exhaust b ctx fn d t e hdone2 hfn hfat2 hmt]
          · rw [doLoop_retry b ctx fn d t e hdone2 hfn hfat2 hmt]
            have hrec := ih ((b.maxTries - ((t + 1 : Nat) : Int)).toNat) (by omega)
              (d * b.factor) (t + 1) rfl
            simp [hlog, hrec]

lemma doLoop_log_invar (b : Breaker) (ctx : GoCtx) (fn : Nat → Option GoError)
    (l1 l2 : Bool) :
    ∀ (n : Nat) (d : ℚ) (t : Nat), (b.maxTries - (t : Int)).toNat = n →
      (doLoop { b with log := l1 } ctx fn d t).ret =
          (doLoop { b with log := l2 } ctx fn d t).ret ∧
        (doLoop { b with log := l1 } ctx fn d t).calls =
          (doLoop { b with log := l2 } ctx fn d t).calls ∧
        (doLoop { b with log := l1 } ctx fn d t).sleeps =
          (doLoop { b with log := l2 } ctx fn d t).sleeps := by
  intro n
  induction n using Nat.strong_induction_on with
  | _ n ih =>
    intro d t hn
    by_cases hdone : ctx.done t = true
    · rw [doLoop_cancel { b with log := l1 } ctx fn d t hdone,
        doLoop_cancel { b with log := l2 } ctx fn d t hdone]
      exact ⟨rfl, rfl, rfl⟩
    · have hdone2 : ctx.done t = false := by simpa using hdone
      cases hfn : fn t with
      | none =>
        rw [doLoop_success { b with log := l1 } ctx fn d t hdone2 hfn,
          doLoop_success { b with log := l2 } ctx fn d t hdone2 hfn]
        exact ⟨rfl, rfl, rfl⟩
      | some e =>
        by_cases hfat : e.is GoError.errFatal = true
        · rw [doLoop_fatal { b with log := l1 } ctx fn d t e hdone2 hfn hfat,
            doLoop_fatal { b with log := l2 } ctx fn d t e hdone2 hfn hfat]
          exact ⟨rfl, rfl, rfl⟩
        · have hfat2 : e.is GoError.errFatal = false := by simpa using hfat
          by_cases hmt : b.maxTries ≤ (t : Int)
          · rw [doLoop_exhaust { b with log := l1 } ctx fn d t e hdone2 hfn hfat2 hmt,
              doLoop_exhaust { b with log := l2 } ctx fn d t e hdone2 hfn hfat2 hmt]
            exact ⟨rfl, rfl, rfl⟩
          · rw [doLoop_retry { b with log := l1 } ctx fn d t e hdone2 hfn hfat2 hmt,
              doLoop_retry { b with log := l2 } ctx fn d t e hdone2 hfn hfat2 hmt]
            obtain ⟨hr, hc, hs⟩ := ih ((b.maxTries - ((t + 1 : Nat) : Int)).toNat)
              (by omega) (d * b.factor) (t + 1) rfl
            exact ⟨hr, by simp [hc], by simp [hs]⟩

lemma doLoop_sleeps_geomA (b : Breaker) (ctx : GoCtx) (fn : Nat → Option GoError) :
    ∀ (n : Nat) (d : ℚ) (t : Nat), (b.maxTries - (t : Int)).toNat = n →
      (doLoop b ctx fn d t).sleeps =
        geomSleeps b.factor d (doLoop b ctx fn d t).sleeps.length := by
  intro n
  induction n using Nat.strong_induction_on with
  | _ n ih =>
    intro d t hn
    by_cases hdone : ctx.done t = true
    · rw [doLoop_cancel b ctx fn d t hdone]
      rfl
    · have hdone2 : ctx.done t = false := by simpa using hdone
      cases hfn : fn t with
      | none =>
        rw [doLoop_success b ctx fn d t hdone2 hfn]
        rfl
      | some e =>
        by_cases hfat : e.is GoError.errFatal = true
        · rw [doLoop_fatal b ctx fn d t e hdone2 hfn hfat]
          rfl
        · have hfat2 : e.is GoError.errFatal = false := by simpa using hfat
          by_cases hmt : b.maxTries ≤ (t : Int)
          · rw [doLoop_exhaust b ctx fn d t e hdone2 hfn hfat2 hmt]
            rfl
          · rw [doLoop_retry b ctx fn d t e hdone2 hfn hfat2 hmt]
            have hrec := ih ((b.maxTries - ((t + 1 : Nat) : Int)).toNat)
              (by omega) (d * b.factor) (t + 1) rfl
            simp only [List.length_cons, geomSleeps]
            rw [← hrec]

lemma doLoop_warns_attempts (b : Breaker) (ctx : GoCtx) (fn : Nat → Option GoError)
    (hlog : b.log = true) :
    ∀ (n : Nat) (d : ℚ) (t : Nat), (b.maxTries - (t : Int)).toNat = n →
      (doLoop b ctx fn d t).warns.map (fun w => w.2.1) =
        attemptNums t (doLoop b ctx fn d t).warns.length := by
  intro n
  induction n using Nat.strong_induction_on with
  | _ n ih =>
    intro d t hn
    by_cases hdone : ctx.done t = true
    · rw [doLoop_cancel b ctx fn d t hdone]
      rfl
    · have hdone2 : ctx.done t = false := by simpa using hdone
      cases hfn : fn t with
      | none =>
        rw [doLoop_success b ctx fn d t hdone2 hfn]
        rfl
      | some e =>
        by_cases hfat : e.is GoError.errFatal = true
        · rw [doLoop_fatal b ctx fn d t e hdone2 hfn hfat]
          rfl
        · have hfat2 : e.is GoError.errFatal = false := by simpa using hfat
          by_cases hmt : b.maxTries ≤ (t : Int)
          · rw [doLoop_exhaust b ctx fn d t e hdone2 hfn hfat2 hmt]
            rfl
          · rw [doLoop_retry b ctx fn d t e hdone2 hfn hfat2 hmt]
            have hrec := ih ((b.maxTries - ((t + 1 : Nat) : Int)).toNat)
              (by omega) (d * b.factor) (t + 1) rfl
            simp only [hlog, if_true, List.singleton_append, List.map_cons,
              List.length_cons, attemptNums_succ]
            rw [hrec]

lemma doLoop_ret_none (b : Breaker) (ctx : GoCtx) (fn : Nat → Option GoError) :
    ∀ (n : Nat) (d : ℚ) (t : Nat), (b.maxTries - (t : Int)).toNat = n →
      (doLoop b ctx fn d t).ret = none → ∃ k, fn k = none := by
  intro n
  induction n using Nat.strong_induction_on with
  | _ n ih =>
    intro d t hn hret
    by_cases hdone : ctx.done t = true
    · rw [doLoop_cancel b ctx fn d t hdone] at hret
      simp at hret
    · have hdone2 : ctx.done t = false := by simpa using hdone
      cases hfn : fn t with
      | none => exact ⟨t, hfn⟩
      | some e =>
        by_cases hfat : e.is GoError.errFatal = true
        · rw [doLoop_fatal b ctx fn d t e hdone2 hfn hfat] at hret
          simp at hret
        · have hfat2 : e.is GoError.errFatal = false := by simpa using hfat
          by_cases hmt : b.maxTries ≤ (t : Int)
          · rw [doLoop_exhaust b ctx fn d t e hdone2 hfn hfat2 hmt] at hret
            simp at hret
          · rw [doLoop_retry b ctx fn d t e hdone2 hfn hfat2 hmt] at hret
            exact ih ((b.maxTries - ((t + 1 : Nat) : Int)).toNat) (by omega)
              (d * b.factor) (t + 1) rfl hret

lemma doLoop_retries (b : Breaker) (ctx : GoCtx) (fn : Nat → Option GoError)
    (errOf : Nat → GoError) :
    ∀ (j t : Nat) (d : ℚ),
      (∀ i, t ≤ i → i < t + j → ctx.done i = false ∧ fn i = some (errOf i) ∧
        (errOf i).is GoError.errFatal = false ∧ (i : Int) < b.maxTries) →
      doLoop b ctx fn d t =
        ⟨(doLoop b ctx fn (d * b.factor ^ j) (t + j)).ret,
         j + (doLoop b ctx fn (d * b.factor ^ j) (t + j)).calls,
         (if b.log then expWarns errOf b.factor d t j else []) ++
           (doLoop b ctx fn (d * b.factor ^ j) (t + j)).warns,
         (doLoop b ctx fn (d * b.factor ^ j) (t + j)).errors,
         geomSleeps b.factor d j ++ (doLoop b ctx fn (d * b.factor ^ j) (t + j)).sleeps⟩ := by
  intro j
  induction j with
  | zero =>
    intro t d _h
    simp [geomSleeps, expWarns]
  | succ j ihj =>
    intro t d h
    obtain ⟨hd, hf, hnf, hlt⟩ := h t le_rfl (by omega)
    rw [doLoop_retry b ctx fn d t (errOf t) hd hf hnf (by omega)]
    rw [ihj (t + 1) (d * b.factor) (fun i h1 h2 => h i (by omega) (by omega))]
    have harg : d * b.factor * b.factor ^ j = d * b.factor ^ (j + 1) := by ring
    have ht : t + 1 + j = t + (j + 1) := by omega
    rw [harg, ht]
    cases hb : b.log <;>
      simp [hb, geomSleeps, expWarns, DoResult.mk.injEq] <;> omega

lemma expBackoffLoop_ret_none (ctx : GoCtx) (fn : Nat → Int × Option GoError)
    (log : Bool) (backoff : Int) (factor : ℚ) (maxTries : Int) :
    ∀ (fuel : Nat) (delay : ℚ) (tryCount iter : Nat) (r : DoResult),
      expBackoffLoop fuel ctx fn log backoff factor maxTries delay tryCount iter =
        some r →
      r.ret = none → (∃ k, (fn k).2 = none) ∨ (∃ k, ctx.done k = true) := by
  intro fuel
  induction fuel with
  | zero =>
    intro delay tc iter r h
    simp [expBackoffLoop] at h
  | succ fuel ih =>
    intro delay tc iter r h hret
    by_cases hdone : ctx.done iter = true
    · exact Or.inr ⟨iter, hdone⟩
    · have hdone2 : ctx.done iter = false := by simpa using hdone
      cases hfn : (fn iter).2 with
      | none => exact Or.inl ⟨iter, hfn⟩
      | some e =>
        rw [expBackoffLoop] at h
        simp only [hdone2, hfn, Bool.false_eq_true, if_false] at h
        by_cases hreset : 2 * backoff < (fn iter).1
        · simp only [hreset, if_true] at h
          by_cases hbudget : maxTries ≤ ((0 : Nat) : Int)
          · simp only [hbudget, if_true, Option.some.injEq] at h
            rw [← h] at hret
            simp at hret
          · simp only [hbudget, if_false] at h
            rcases Option.map_eq_some'.mp h with ⟨rest, hrest, hfr⟩
            rw [← hfr] at hret
            exact ih ((backoff : ℚ) * factor) 1 (iter + 1) rest hrest hret
        · simp only [hreset, if_false] at h
          by_cases hbudget : maxTries ≤ ((tc : Nat) : Int)
          · simp only [hbudget, if_true, Option.some.injEq] at h
            rw [← h] at hret
            simp at hret
          · simp only [hbudget, if_false] at h
            rcases Option.map_eq_some'.mp h with ⟨rest, hrest, hfr⟩
            rw [← hfr] at hret
            exact ih (delay * factor) (tc + 1) (iter + 1) rest hrest hret

/-- C2: If on any attempt the operation returns an error that matches the
fatal sentinel `ErrFatal` under wrap-aware membership testing (bare or
wrapped anywhere in its cause chain), `Breaker.Do` returns that error value
unchanged immediately: exactly one (further) invocation, no sleep, no log
for that attempt, regardless of the remaining retry budget.  The statement
is over `doLoop` at an arbitrary state `(d, t)`, which covers every attempt
of every run, since `Breaker.Do b ctx fn = doLoop b ctx fn b.backoff 0`. -/
theorem claim_C2 (b : Breaker) (ctx : GoCtx) (fn : Nat → Option GoError)
    (d : ℚ) (t : Nat) (e : GoError) (h1 : ctx.done t = false)
    (h2 : fn t = some e) (h3 : e.is GoError.errFatal = true) :
    doLoop b ctx fn d t = ⟨some e, 1, [], [], []⟩ :=
  doLoop_fatal b ctx fn d t e h1 h2 h3

/-- Witness for C2 at a concrete input: the wrapped-fatal error from the
test suite, `superr.Wrap(ErrFatal, fmt.Errorf("error"))`, on the first
attempt of `New(log, 100, 2, 3)`. -/
theorem claim_C2_witness :
    doLoop (New true 100 2 3) ⟨fun _ => false, GoError.mk "context canceled"⟩
        (fun _ => some (GoError.wrap GoError.errFatal (GoError.mk "error"))) 100 0 =
      ⟨some (GoError.wrap GoError.errFatal (GoError.mk "error")), 1, [], [], []⟩ :=
  claim_C2 (New true 100 2 3) ⟨fun _ => false, GoError.mk "context canceled"⟩
    (fun _ => some (GoError.wrap GoError.errFatal (GoError.mk "error"))) 100 0
    (GoError.wrap GoError.errFatal (GoError.mk "error")) rfl rfl (by decide)

/-- C3: If the cancellation signal is already triggered at the top of a loop
iteration (`doLoop` at any state `(d, t)`; the iteration index equals the
current `tryCount`, and `Breaker.Do b ctx fn = doLoop b ctx fn b.backoff 0`),
the run returns immediately with the cancellation's associated error
`ctx.err`, propagated unchanged and never wrapped, with zero invocations of
the operation, no logging, no sleeping, and no mutation of the retry state
(the loop returns without touching `delay` or `tryCount`). -/
theorem claim_C3 (b : Breaker) (ctx : GoCtx) (fn : Nat → Option GoError)
    (d : ℚ) (t : Nat) (h : ctx.done t = true) :
    doLoop b ctx fn d t = ⟨some ctx.err, 0, [], [], []⟩ :=
  doLoop_cancel b ctx fn d t h

/-- Witness for C3 at a concrete input: a context cancelled before the first
attempt. -/
theorem claim_C3_witness :
    doLoop (New true 100 2 3) ⟨fun _ => true, GoError.mk "context canceled"⟩
        (fun _ => none) 100 0 =
      ⟨some (GoError.mk "context canceled"), 0, [], [], []⟩ :=
  claim_C3 (New true 100 2 3) ⟨fun _ => true, GoError.mk "context canceled"⟩
    (fun _ => none) 100 0 rfl

/-- C4: When the retry budget is exhausted (a retryable failure with
`tryCount >= maxTries`), the run returns `superr.New(ErrHitMaxRetries, err)`
after one error-level log: a composite that matches `ErrHitMaxRetries` under
wrap-aware testing, has the last operation error recoverable from its cause
chain, and is never the last operation error bare. -/
theorem claim_C4 (b : Breaker) (ctx : GoCtx) (fn : Nat → Option GoError)
    (d : ℚ) (t : Nat) (e : GoError) (h1 : ctx.done t = false)
    (h2 : fn t = some e) (h3 : e.is GoError.errFatal = false)
    (h4 : b.maxTries ≤ (t : Int)) :
    doLoop b ctx fn d t =
      ⟨some (GoError.wrap GoError.errHitMaxRetries e), 1, [],
        if b.log then [b.maxTries] else [], []⟩ ∧
    (GoError.wrap GoError.errHitMaxRetries e).is GoError.errHitMaxRetries = true ∧
    (GoError.wrap GoError.errHitMaxRetries e).is e = true ∧
    GoError.wrap GoError.errHitMaxRetries e ≠ e :=
  ⟨doLoop_exhaust b ctx fn d t e h1 h2 h3 h4,
   GoError.wrap_is_left _ _ _ (GoError.is_self _),
   GoError.wrap_is_right _ _,
   GoError.wrap_ne _ _⟩

/-- Witness for C4 at a concrete input: budget 0, first attempt fails with a
retryable error. -/
theorem claim_C4_witness :
    doLoop (New true 100 2 0) ⟨fun _ => false, GoError.mk "context canceled"⟩
        (fun _ => some (GoError.mk "error")) 100 0 =
      ⟨some (GoError.wrap GoError.errHitMaxRetries (GoError.mk "error")), 1, [],
        if (New true 100 2 0).log then [(New true 100 2 0).maxTries] else [], []⟩ ∧
    (GoError.wrap GoError.errHitMaxRetries (GoError.mk "error")).is
      GoError.errHitMaxRetries = true ∧
    (GoError.wrap GoError.errHitMaxRetries (GoError.mk "error")).is
      (GoError.mk "error") = true ∧
    GoError.wrap GoError.errHitMaxRetries (GoError.mk "error") ≠ GoError.mk "error" :=
  claim_C4 (New true 100 2 0) ⟨fun _ => false, GoError.mk "context canceled"⟩
    (fun _ => some (GoError.mk "error")) 100 0 (GoError.mk "error")
    rfl rfl (by decide) (by decide)

/-- C1: For every `maxTries = N >= 0` and every operation failing on every
invocation with a retryable (non-fatal) error, `Breaker.Do` (with a logger
present) invokes the operation exactly `N + 1` times, emits exactly `N`
warnings and exactly one error-level log, and returns the composite
retry-budget-exhausted error `superr.New(ErrHitMaxRetries, lastErr)`.  With
`N = 0` the operation is attempted exactly once with no retry (no warning,
no sleep). -/
theorem claim_C1 (b : Breaker) (ctx : GoCtx) (errOf : Nat → GoError) (N : Nat)
    (hmt : b.maxTries = (N : Int)) (hlog : b.log = true)
    (hctx : ∀ i, ctx.done i = false)
    (hnf : ∀ i, (errOf i).is GoError.errFatal = false) :
    b.Do ctx (fun k => some (errOf k)) =
      ⟨some (GoError.wrap GoError.errHitMaxRetries (errOf N)), N + 1,
       expWarns errOf b.factor (b.backoff : ℚ) 0 N, [b.maxTries],
       geomSleeps b.factor (b.backoff : ℚ) N⟩ ∧
    (b.Do ctx (fun k => some (errOf k))).warns.length = N ∧
    (b.Do ctx (fun k => some (errOf k))).errors.length = 1 ∧
    (GoError.wrap GoError.errHitMaxRetries (errOf N)).is GoError.errHitMaxRetries = true := by
  have hpre := doLoop_retries b ctx (fun k => some (errOf k)) errOf N 0 (b.backoff : ℚ)
    (fun i _ h2 => ⟨hctx i, rfl, hnf i, by omega⟩)
  have htail := doLoop_exhaust b ctx (fun k => some (errOf k))
    ((b.backoff : ℚ) * b.factor ^ N) (0 + N) (errOf (0 + N))
    (hctx _) rfl (hnf _) (by omega)
  simp only [Nat.zero_add] at hpre htail
  refine ⟨?_, ?_, ?_, GoError.wrap_is_left _ _ _ (GoError.is_self _)⟩ <;>
    simp [Breaker.Do, hpre, htail, hlog, expWarns_length, geomSleeps_length]

/-- Witness for C1: the concrete scenario `New(logger, 100ms, 2, 3)` with an
always-failing operation: 4 attempts, 3 warnings, 1 error log, and the
returned error matches `ErrHitMaxRetries`. -/
theorem claim_C1_witness :
    (New true 100000000 2 3).Do ⟨fun _ => false, GoError.mk "context canceled"⟩
        (fun _ => some (GoError.mk "error")) =
      ⟨some (GoError.wrap GoError.errHitMaxRetries (GoError.mk "error")), 4,
       expWarns (fun _ => GoError.mk "error") (New true 100000000 2 3).factor
         (((New true 100000000 2 3).backoff : Int) : ℚ) 0 3,
       [(New true 100000000 2 3).maxTries],
       geomSleeps (New true 100000000 2 3).factor
         (((New true 100000000 2 3).backoff : Int) : ℚ) 3⟩ ∧
    ((New true 100000000 2 3).Do ⟨fun _ => false, GoError.mk "context canceled"⟩
        (fun _ => some (GoError.mk "error"))).warns.length = 3 ∧
    ((New true 100000000 2 3).Do ⟨fun _ => false, GoError.mk "context canceled"⟩
        (fun _ => some (GoError.mk "error"))).errors.length = 1 ∧
    (GoError.wrap GoError.errHitMaxRetries (GoError.mk "error")).is
      GoError.errHitMaxRetries = true :=
  claim_C1 (New true 100000000 2 3) ⟨fun _ => false, GoError.mk "context canceled"⟩
    (fun _ => GoError.mk "error") 3 rfl rfl (fun _ => rfl)
    (fun _ => (by decide : (GoError.mk "error").is GoError.errFatal = false))

/-- C6: For every operation that fails with retryable errors on its first
`m` invocations and succeeds on invocation `m + 1` (that is, on attempt
`k = m + 1`, 1-indexed, with `k <= maxTries + 1`), `Breaker.Do` (with a
logger present) invokes the operation exactly `m + 1 = k` times, emits
exactly `m = k - 1` warnings and zero error-level logs, and returns no
error. -/
theorem claim_C6 (b : Breaker) (ctx : GoCtx) (errOf : Nat → GoError)
    (fn : Nat → Option GoError) (m : Nat)
    (hm : (m : Int) ≤ b.maxTries) (hlog : b.log = true)
    (hctx : ∀ i, i ≤ m → ctx.done i = false)
    (hfail : ∀ i, i < m → fn i = some (errOf i) ∧ (errOf i).is GoError.errFatal = false)
    (hsucc : fn m = none) :
    b.Do ctx fn =
      ⟨none, m + 1, expWarns errOf b.factor (b.backoff : ℚ) 0 m, [],
        geomSleeps b.factor (b.backoff : ℚ) m⟩ ∧
    (b.Do ctx fn).warns.length = m ∧
    (b.Do ctx fn).errors = [] := by
  have hpre := doLoop_retries b ctx fn errOf m 0 (b.backoff : ℚ)
    (fun i _ h2 => ⟨hctx i (by omega), (hfail i (by omega)).1,
      (hfail i (by omega)).2, by omega⟩)
  have htail := doLoop_success b ctx fn ((b.backoff : ℚ) * b.factor ^ m) (0 + m)
    (by simpa using hctx m le_rfl) (by simpa using hsucc)
  simp only [Nat.zero_add] at hpre htail
  refine ⟨?_, ?_, ?_⟩ <;>
    simp [Breaker.Do, hpre, htail, hlog, expWarns_length, geomSleeps_length]

/-- Witness for C6: the concrete scenario `New(logger, 100ms, 2, 3)` with an
operation that errors once then succeeds: 2 attempts, 1 warning, 0 error
logs, no returned error. -/
theorem claim_C6_witness :
    (New true 100000000 2 3).Do ⟨fun _ => false, GoError.mk "context canceled"⟩
        (fun k => if k = 0 then some (GoError.mk "error") else none) =
      ⟨none, 2,
       expWarns (fun _ => GoError.mk "error") (New true 100000000 2 3).factor
         (((New true 100000000 2 3).backoff : Int) : ℚ) 0 1,
       [],
       geomSleeps (New true 100000000 2 3).factor
         (((New true 100000000 2 3).backoff : Int) : ℚ) 1⟩ ∧
    ((New true 100000000 2 3).Do ⟨fun _ => false, GoError.mk "context canceled"⟩
        (fun k => if k = 0 then some (GoError.mk "error") else none)).warns.length = 1 ∧
    ((New true 100000000 2 3).Do ⟨fun _ => false, GoError.mk "context canceled"⟩
        (fun k => if k = 0 then some (GoError.mk "error") else none)).errors = [] :=
  claim_C6 (New true 100000000 2 3) ⟨fun _ => false, GoError.mk "context canceled"⟩
    (fun _ => GoError.mk "error")
    (fun k => if k = 0 then some (GoError.mk "error") else none) 1
    (by decide) rfl (fun i _ => rfl)
    (fun i hi => by
      have h0 : i = 0 := by omega
      subst h0
      exact ⟨rfl, by decide⟩)
    rfl

/-- C5 (amended): every terminal path of `Breaker.Do` returns a non-nil
error except when some invocation of the operation returned success; for
`ExpBackoffRetry` every terminal path returns a non-nil error except the
success path and the cancellation path, which returns Go `nil` (so there the
cancellation outcome is swallowed).  The claim as frozen, which asserts the
success-only exception for both entry points, fails on `ExpBackoffRetry`
(see the counterexample). -/
theorem claim_C5 :
    (∀ (b : Breaker) (ctx : GoCtx) (fn : Nat → Option GoError),
        (b.Do ctx fn).ret = none → ∃ k, fn k = none) ∧
    (∀ (fuel : Nat) (ctx : GoCtx) (fn : Nat → Int × Option GoError) (lg : Bool)
        (backoff : Int) (factor : ℚ) (maxTries : Int) (r : DoResult),
        ExpBackoffRetry fuel ctx fn lg backoff factor maxTries = some r →
        r.ret = none →
        (∃ k, (fn k).2 = none) ∨ (∃ k, ctx.done k = true)) := by
  constructor
  · intro b ctx fn hret
    exact doLoop_ret_none b ctx fn ((b.maxTries - ((0 : Nat) : Int)).toNat)
      (b.backoff : ℚ) 0 rfl hret
  · intro fuel ctx fn lg backoff factor maxTries r h hret
    exact expBackoffLoop_ret_none ctx fn lg backoff factor maxTries fuel
      (backoff : ℚ) 0 0 r h hret

/-- Counterexample to C5 as frozen: `ExpBackoffRetry` with a cancellation
signal already triggered at iteration 0 terminates and returns Go `nil`
(`ret = none`) with zero invocations of the operation — a terminal path that
returns no error although the operation never succeeded (the operation here
always fails). -/
theorem claim_C5_counterexample :
    ExpBackoffRetry 1 ⟨fun _ => true, GoError.mk "context canceled"⟩
        (fun _ => ((0 : Int), some (GoError.mk "error"))) true 100 2 3 =
      some ⟨none, 0, [], [], []⟩ := rfl

/-- Witness for C5: part 1 applied to a run whose first invocation succeeds,
part 2 applied to the cancelled run (right disjunct). -/
theorem claim_C5_witness :
    (∃ k, (fun _ : Nat => (none : Option GoError)) k = none) ∧
    ((∃ k, ((fun _ : Nat => ((0 : Int), some (GoError.mk "error"))) k).2 = none) ∨
      (∃ k, (GoCtx.mk (fun _ => true) (GoError.mk "context canceled")).done k = true)) := by
  constructor
  · exact claim_C5.1 (New true 100 2 3) ⟨fun _ => false, GoError.mk "context canceled"⟩
      (fun _ => none)
      (by rw [show (New true 100 2 3).Do ⟨fun _ => false, GoError.mk "context canceled"⟩
          (fun _ => none) = ⟨none, 1, [], [], []⟩ from doLoop_success _ _ _ _ _ rfl rfl])
  · exact claim_C5.2 1 ⟨fun _ => true, GoError.mk "context canceled"⟩
      (fun _ => ((0 : Int), some (GoError.mk "error"))) true 100 2 3
      ⟨none, 0, [], [], []⟩ rfl rfl

/-- C7: for every configuration, context and operation, the returned error,
the number of invocations and the sleep schedule of `Breaker.Do` are
identical whatever the logger field is — in particular identical between an
absent (`nil`) logger and any present logger: logging never changes control
flow or the result, and the nil logger is tolerated on every path (the `log`
branches only guard the emission of log events). -/
theorem claim_C7 (b : Breaker) (ctx : GoCtx) (fn : Nat → Option GoError)
    (l1 l2 : Bool) :
    (({ b with log := l1 } : Breaker).Do ctx fn).ret =
        (({ b with log := l2 } : Breaker).Do ctx fn).ret ∧
      (({ b with log := l1 } : Breaker).Do ctx fn).calls =
        (({ b with log := l2 } : Breaker).Do ctx fn).calls ∧
      (({ b with log := l1 } : Breaker).Do ctx fn).sleeps =
        (({ b with log := l2 } : Breaker).Do ctx fn).sleeps := by
  have h := doLoop_log_invar b ctx fn l1 l2 ((b.maxTries - ((0 : Nat) : Int)).toNat)
    (b.backoff : ℚ) 0 rfl
  simpa [Breaker.Do] using h

/-- C8: within a single run of `Breaker.Do`, the sleep schedule is exactly
geometric — the i-th sleep (0-based; the sleep before the (i+1)-th retry)
lasts `backoff * factor^i`, i.e. the `delay` state starts at `backoff` and
is multiplied by `factor` after every failed-and-retried attempt — and the
attempt numbers `try+1` carried by the successive warnings are `1, 2, 3,
...`, i.e. `tryCount` starts at 0 and increments by exactly one per retry.
The equalities hold for every context and operation; the embedded loop has
no elapsed-time input at all, so no reset of `delay` or `tryCount` based on
elapsed time can occur. -/
theorem claim_C8 (b : Breaker) (ctx : GoCtx) (fn : Nat → Option GoError) :
    (b.Do ctx fn).sleeps =
      geomSleeps b.factor (b.backoff : ℚ) (b.Do ctx fn).sleeps.length ∧
    (b.Do ctx fn).warns.map (fun w => w.2.1) =
      attemptNums 0 (b.Do ctx fn).warns.length := by
  constructor
  · have h := doLoop_sleeps_geomA b ctx fn ((b.maxTries - ((0 : Nat) : Int)).toNat)
      (b.backoff : ℚ) 0 rfl
    simpa [Breaker.Do] using h
  · cases hlog : b.log
    · have h := doLoop_warns_nil b ctx fn hlog ((b.maxTries - ((0 : Nat) : Int)).toNat)
        (b.backoff : ℚ) 0 rfl
      simp [Breaker.Do] at h ⊢
      simp [h, attemptNums]
    · have h := doLoop_warns_attempts b ctx fn hlog
        ((b.maxTries - ((0 : Nat) : Int)).toNat) (b.backoff : ℚ) 0 rfl
      simpa [Breaker.Do] using h

/-- C9: the defaulted constructor returns an executor whose configuration is
exactly `backoff` = 1 second (10^9 ns), `factor` = 2, `maxTries` = 15, with
the logger presence as supplied.  The configuration is immutable afterwards:
in the embedding the run (`Breaker.Do`/`doLoop`) threads the `Breaker` value
through unchanged and only reads it, mirroring the Go code, which never
assigns to the struct fields after construction. -/
theorem claim_C9 (optLog : Bool) :
    Default optLog =
      { log := optLog, backoff := 1000000000, factor := 2, maxTries := 15 } := rfl

/-- C10: for every `maxTries < 0`, `Breaker.Do` behaves exactly as with
`maxTries = 0`: a first attempt failing with a retryable error exhausts the
budget immediately after exactly one invocation, with one error-level log,
no warning and no sleep, returning the composite matching
`ErrHitMaxRetries` (the only difference from `maxTries = 0` is the
`maxTries` value printed inside the single error-level log line). -/
theorem claim_C10 (b : Breaker) (ctx : GoCtx) (fn : Nat → Option GoError)
    (e : GoError) (hneg : b.maxTries < 0) (h1 : ctx.done 0 = false)
    (h2 : fn 0 = some e) (h3 : e.is GoError.errFatal = false) :
    b.Do ctx fn =
      ⟨some (GoError.wrap GoError.errHitMaxRetries e), 1, [],
        if b.log then [b.maxTries] else [], []⟩ ∧
    ({ b with maxTries := 0 } : Breaker).Do ctx fn =
      ⟨some (GoError.wrap GoError.errHitMaxRetries e), 1, [],
        if b.log then [(0 : Int)] else [], []⟩ ∧
    (GoError.wrap GoError.errHitMaxRetries e).is GoError.errHitMaxRetries = true := by
  refine ⟨?_, ?_, GoError.wrap_is_left _ _ _ (GoError.is_self _)⟩
  · exact doLoop_exhaust b ctx fn (b.backoff : ℚ) 0 e h1 h2 h3 (by omega)
  · exact doLoop_exhaust { b with maxTries := 0 } ctx fn (b.backoff : ℚ) 0 e h1 h2 h3
      (by simp)

/-- Witness for C10 at a concrete input: `New(logger, 100, 2, -5)` with a
first retryable failure. -/
theorem claim_C10_witness :
    (New true 100 2 (-5)).Do ⟨fun _ => false, GoError.mk "context canceled"⟩
        (fun _ => some (GoError.mk "error")) =
      ⟨some (GoError.wrap GoError.errHitMaxRetries (GoError.mk "error")), 1, [],
        if (New true 100 2 (-5)).log then [(New true 100 2 (-5)).maxTries] else [], []⟩ ∧
    ({ New true 100 2 (-5) with maxTries := 0 } : Breaker).Do
        ⟨fun _ => false, GoError.mk "context canceled"⟩
        (fun _ => some (GoError.mk "error")) =
      ⟨some (GoError.wrap GoError.errHitMaxRetries (GoError.mk "error")), 1, [],
        if (New true 100 2 (-5)).log then [(0 : Int)] else [], []⟩ ∧
    (GoError.wrap GoError.errHitMaxRetries (GoError.mk "error")).is
      GoError.errHitMaxRetries = true :=
  claim_C10 (New true 100 2 (-5)) ⟨fun _ => false, GoError.mk "context canceled"⟩
    (fun _ => some (GoError.mk "error")) (GoError.mk "error")
    (by decide) rfl rfl (by decide)
